import Mathlib

/-!
# Verification of the Traefik ModSecurity plugin (`modsecurity.go`)

A shallow embedding of the Go package `traefik_modsecurity_plugin`:
the constructor `New`, the handler `Modsecurity.ServeHTTP` and the helper
`isWebsocket`, together with the small part of the Go standard library the
handler calls (`ioutil.ReadAll`, `bytes.NewReader`, `http.NewRequest`,
`http.Header.Set`, `http.Error`, `io.Copy`, `http.ResponseWriter`).

Effects are made explicit: a run of `ServeHTTP` returns the final state of
the response writer, the ordered trace of the external calls it made and the
way the call ended (one of the five return points, or a Go panic).
The network (`httpClient.Do`) and `net/url.Parse` are parameters of the
model (`Env`); everything else is computed.
-/

namespace ModSecurity

/-! ## Data model -/

/-- Go `[]byte`. -/
abbrev Bytes := List UInt8

/-- Go `[]byte(s)`: the UTF-8 bytes of a string. -/
def stringBytes (s : String) : Bytes := s.data.flatMap String.utf8EncodeChar

/-- Go `http.Header`, a `map[string][]string`: a finite map with distinct
keys. The order of `entries` stands for one iteration order of `range`. -/
abbrev Header := AList (fun _ : String => List String)

/-- Go `h[key]` on a `map[string][]string`: the nil slice when absent. -/
def Header.index (h : Header) (key : String) : List String :=
  (h.lookup key).getD []

/-- An `io.Reader` seen through the sequence of results its `Read` calls
produce: data chunks, then either `io.EOF` or some other error. -/
inductive Reader where
  | eof : Reader
  | err (e : String) : Reader
  | chunk (data : Bytes) (rest : Reader) : Reader
  deriving DecidableEq, Repr

/-- Go `ioutil.ReadAll`: reads until EOF or error; returns what was read and
the error (`none` for a nil error; EOF is not reported as an error). -/
def ioutilReadAll : Reader → Bytes × Option String
  | .eof => ([], none)
  | .err e => ([], some e)
  | .chunk data rest =>
    let r := ioutilReadAll rest
    (data ++ r.1, r.2)

/-- Go `bytes.NewReader(b)`: a fresh reader positioned at the start of `b`;
it reports EOF at once when `b` is empty. -/
def bytesNewReader (b : Bytes) : Reader :=
  if b = [] then .eof else .chunk b .eof

/-- Go `ioutil.NopCloser`: same reads, `Close` does nothing. -/
def ioutilNopCloser (r : Reader) : Reader := r

/-- Go `http.Request`, the fields the handler touches. `URL` holds the raw
string the request was built with (client requests), `RequestURI` the raw
request target (server requests). -/
structure Request where
  Method : String
  URL : String
  RequestURI : String
  Header : Header
  Body : Reader
  deriving DecidableEq

/-- Go `http.Response`, the fields the handler touches. -/
structure Response where
  StatusCode : Int
  Header : Header
  Body : Reader
  deriving DecidableEq

/-- State of an `http.ResponseWriter`: its header map, the status code sent
by the first `WriteHeader` (`none` while no header was written), and the
bytes written so far. -/
structure ResponseWriter where
  header : Header
  status : Option Int
  body : Bytes
  deriving DecidableEq

/-- A response writer nothing has been written to. -/
def ResponseWriter.fresh : ResponseWriter :=
  { header := ∅, status := none, body := [] }

/-- Go `http.Handler`, as the effect of `ServeHTTP` on the response writer. -/
abbrev Handler := ResponseWriter → Request → ResponseWriter

/-! ## Standard-library operations used by the handler -/

/-- The token characters of RFC 7230 by code point (Go `httpguts.IsTokenRune`
and `textproto.validHeaderFieldByte`): digits, ASCII letters and the fifteen
marks with codes 33, 35 to 39, 42, 43, 45, 46, 94 to 96, 124 and 126. -/
def isTokenChar (c : Char) : Bool :=
  let n := c.toNat
  (n ∈ [33, 35, 36, 37, 38, 39, 42, 43, 45, 46, 94, 95, 96, 124, 126])
    || (48 ≤ n && n ≤ 57) || (65 ≤ n && n ≤ 90) || (97 ≤ n && n ≤ 122)

/-- The rewriting loop of Go `textproto.canonicalMIMEHeaderKey`: upper case
for the first letter and each letter after a dash, lower case elsewhere. -/
def canonicalLoop : Bool → List Char → List Char
  | _, [] => []
  | upper, c :: cs =>
    let c1 := if upper then c.toUpper else c.toLower
    c1 :: canonicalLoop (c1 == '-') cs

/-- Go `textproto.CanonicalMIMEHeaderKey`: a key holding a byte that is not
a token character is returned unchanged, otherwise it is canonicalised. -/
def CanonicalMIMEHeaderKey (s : String) : String :=
  if s.data.all isTokenChar then ⟨canonicalLoop true s.data⟩ else s

/-- Go `http.Header.Set`: `h[CanonicalMIMEHeaderKey(key)] = []string{value}`,
replacing whatever values the key had. -/
def Header.Set (h : Header) (key value : String) : Header :=
  h.insert (CanonicalMIMEHeaderKey key) [value]

/-- Go `rw.Header().Set(key, value)`. -/
def ResponseWriter.HeaderSet (w : ResponseWriter) (key value : String) :
    ResponseWriter :=
  { w with header := w.header.Set key value }

/-- Go `rw.WriteHeader(code)`: the first call fixes the status, later calls
are superfluous and ignored. The range check `net/http` makes on the code is
left out: the handler passes 500, 502 or the three-digit status, at least
400, of a parsed oracle response. -/
def ResponseWriter.WriteHeader (w : ResponseWriter) (code : Int) :
    ResponseWriter :=
  match w.status with
  | none => { w with status := some code }
  | some _ => w

/-- Go `rw.Write(p)`: sends status 200 first when no header was written,
then appends `p` to the body. -/
def ResponseWriter.Write (w : ResponseWriter) (p : Bytes) : ResponseWriter :=
  let w1 := w.WriteHeader 200
  { w1 with body := w1.body ++ p }

/-- Go `http.StatusInternalServerError`. -/
def StatusInternalServerError : Int := 500

/-- Go `http.StatusBadGateway`. -/
def StatusBadGateway : Int := 502

/-- Go `http.Error(w, error, code)`: plain-text content type, the status
code, then the message followed by a newline (`fmt.Fprintln`). -/
def httpError (w : ResponseWriter) (error : String) (code : Int) :
    ResponseWriter :=
  let w1 := w.HeaderSet "Content-Type" "text/plain; charset=utf-8"
  let w2 := w1.HeaderSet "X-Content-Type-Options" "nosniff"
  let w3 := w2.WriteHeader code
  w3.Write (stringBytes (error ++ "\n"))

/-- Go `io.Copy(rw, src)`: writes every chunk read from `src` until EOF or
a read error (the handler discards the result). -/
def ioCopy (w : ResponseWriter) : Reader → ResponseWriter
  | .eof => w
  | .err _ => w
  | .chunk data rest => ioCopy (w.Write data) rest

/-- Go `http.validMethod`: non-empty and made of token characters only. -/
def validMethod (method : String) : Bool :=
  method.utf8ByteSize > 0 && method.data.all isTokenChar

/-- What the model does not compute: `net/url.Parse` (`some e` is the parse
error, `none` a successful parse) and the network round trip of the shared
client, `httpClient.Do` (transport errors, the timeout among them, are
`Except.error`). -/
structure Env where
  urlParse : String → Option String
  Do : Request → Except String Response

/-- The shared client's `Timeout`, in nanoseconds (`time.Second * 2`). -/
def httpClientTimeout : Nat := 1000000000 * 2

/-- Go `http.NewRequest(method, url, body)`: an empty method means GET; an
invalid method or an unparsable URL gives an error and a nil request;
otherwise a request with an empty header map (a `bytes.Reader` of length 0
is replaced by `http.NoBody`, which reads the same: EOF at once). -/
def NewRequest (env : Env) (method url : String) (body : Reader) :
    Except String Request :=
  let method1 := if method = "" then "GET" else method
  if !validMethod method1 then
    .error ("net/http: invalid method " ++ method1)
  else
    match env.urlParse url with
    | some e => .error e
    | none =>
      .ok { Method := method1, URL := url, RequestURI := "",
            Header := ∅, Body := ioutilNopCloser body }

/-! ## The plugin -/

/-- Go `Config`. -/
structure Config where
  ModSecurityUrl : String
  deriving DecidableEq

/-- Go `CreateConfig`: the zero configuration. -/
def CreateConfig : Config := { ModSecurityUrl := "" }

/-- Go `Modsecurity`. -/
structure Modsecurity where
  next : Handler
  modSecurityUrl : String
  name : String

/-- Go `context.Context` (unused by `New`). -/
abbrev Context := Unit

/-- Go `New`: the pair (handler, error); `none` is Go nil. -/
def New (_ctx : Context) (next : Handler) (config : Config) (name : String) :
    Option Modsecurity × Option String :=
  if config.ModSecurityUrl.utf8ByteSize == 0 then
    (none, some "modSecurityUrl cannot be empty")
  else
    (some { modSecurityUrl := config.ModSecurityUrl, next := next, name := name },
     none)

/-- Go `isWebsocket`, the loop over `req.Header["Upgrade"]`. -/
def isWebsocketLoop : List String → Bool
  | [] => false
  | header :: rest => if header = "websocket" then true else isWebsocketLoop rest

/-- Go `isWebsocket`. -/
def isWebsocket (req : Request) : Bool :=
  isWebsocketLoop (req.Header.index "Upgrade")

/-- The five return points of `ServeHTTP`, named as in the state machine. -/
inductive Terminal where
  | BYPASSED | CAPTURE_FAILED | DISPATCH_FAILED | BLOCKED | ALLOWED
  deriving DecidableEq, Repr

/-- How a call of `ServeHTTP` ends: it returns at one of its return points,
or the goroutine panics (nil pointer dereference). -/
inductive Exit where
  | returned (t : Terminal) : Exit
  | panicked : Exit
  deriving DecidableEq, Repr

/-- The external calls `ServeHTTP` makes, with their arguments. -/
inductive Event where
  | readAll (body : Reader) : Event
  | newRequest (method url : String) (body : Reader) : Event
  | clientDo (proxyReq : Request) : Event
  | next (rw : ResponseWriter) (req : Request) : Event
  | respBodyClose : Event
  deriving DecidableEq

/-- Outcome of one call of `ServeHTTP`. -/
structure Result where
  rw : ResponseWriter
  trace : List Event
  exit : Exit

/-- Lines 76-78: `for h, val := range req.Header { proxyReq.Header[h] = val }`
into a fresh map. -/
def copyRequestHeader (src : Header) : Header :=
  src.entries.foldl (fun dst e => dst.insert e.1 e.2) ∅

/-- Lines 90-92: `for _, v := range vv { rw.Header().Set(k, v) }`. -/
def relayValues (w : ResponseWriter) (k : String) (vv : List String) :
    ResponseWriter :=
  vv.foldl (fun w1 v => w1.HeaderSet k v) w

/-- Lines 89-93: `for k, vv := range resp.Header { ... }`. -/
def relayHeaders (w : ResponseWriter) (h : Header) : ResponseWriter :=
  h.entries.foldl (fun w1 e => relayValues w1 e.1 e.2) w

/-- Go `(*Modsecurity).ServeHTTP`. -/
def Modsecurity.ServeHTTP (env : Env) (a : Modsecurity) (rw : ResponseWriter)
    (req : Request) : Result :=
  if isWebsocket req then
    { rw := a.next rw req, trace := [.next rw req],
      exit := .returned .BYPASSED }
  else
    match ioutilReadAll req.Body with
    | (_, some err) =>
      { rw := httpError rw err StatusInternalServerError,
        trace := [.readAll req.Body],
        exit := .returned .CAPTURE_FAILED }
    | (body, none) =>
      let req1 := { req with Body := ioutilNopCloser (bytesNewReader body) }
      let url := a.modSecurityUrl ++ req1.RequestURI
      let t1 := [Event.readAll req.Body,
                 Event.newRequest req1.Method url (bytesNewReader body)]
      match NewRequest env req1.Method url (bytesNewReader body) with
      | .error _ =>
        -- err is not checked; proxyReq is nil and `proxyReq.Header = ...`
        -- dereferences it
        { rw := rw, trace := t1, exit := .panicked }
      | .ok proxyReq0 =>
        let proxyReq := { proxyReq0 with Header := copyRequestHeader req1.Header }
        let t2 := t1 ++ [Event.clientDo proxyReq]
        match env.Do proxyReq with
        | .error err =>
          { rw := httpError rw err StatusBadGateway, trace := t2,
            exit := .returned .DISPATCH_FAILED }
        | .ok resp =>
          if resp.StatusCode ≥ 400 then
            let w1 := relayHeaders rw resp.Header
            let w2 := w1.WriteHeader resp.StatusCode
            let w3 := ioCopy w2 resp.Body
            { rw := w3, trace := t2 ++ [Event.respBodyClose],
              exit := .returned .BLOCKED }
          else
            { rw := a.next rw req1,
              trace := t2 ++ [Event.next rw req1, Event.respBodyClose],
              exit := .returned .ALLOWED }

/-! ## Projections of a trace -/

/-- The (writer, request) pairs handed to `next`, in order. -/
def nextCalls : List Event → List (ResponseWriter × Request)
  | [] => []
  | .next rw req :: t => (rw, req) :: nextCalls t
  | _ :: t => nextCalls t

/-- The oracle requests dispatched through `httpClient.Do`, in order. -/
def dispatched : List Event → List Request
  | [] => []
  | .clientDo p :: t => p :: dispatched t
  | _ :: t => dispatched t

/-- The URL arguments of the calls to `http.NewRequest`, in order. -/
def builtURLs : List Event → List String
  | [] => []
  | .newRequest _ url _ :: t => url :: builtURLs t
  | _ :: t => builtURLs t

/-- The number of reads of the inbound body (`ioutil.ReadAll`). -/
def bodyReads : List Event → Nat
  | [] => 0
  | .readAll _ :: t => bodyReads t + 1
  | _ :: t => bodyReads t


/-! ## Concrete inputs used by the examples -/

/-- A downstream handler that answers with a fixed body. -/
def exampleNext : Handler := fun w _ => w.Write (stringBytes "upstream")

/-- A plugin in front of `exampleNext` with the oracle at `http://oracle:8080`. -/
def examplePlugin : Modsecurity :=
  { next := exampleNext, modSecurityUrl := "http://oracle:8080", name := "waf" }

/-- The request `GET /a/b?x=1` with two headers and a body sent in two chunks. -/
def exampleRequest : Request where
  Method := "GET"
  URL := ""
  RequestURI := "/a/b?x=1"
  Header := AList.insert "Accept" ["text/html", "*/*"] (AList.insert "X-Trace" ["7"] ∅)
  Body := .chunk (stringBytes "he") (.chunk (stringBytes "llo") .eof)

/-- An oracle response with status `s`, a header that carries two values and
a short body. -/
def oracleResponse (s : Int) : Response where
  StatusCode := s
  Header := AList.insert "Set-Cookie" ["a=1", "b=2"]
    (AList.insert "Content-Type" ["text/html"] ∅)
  Body := .chunk (stringBytes "denied") .eof

/-- An environment whose oracle answers every request with status `s`. -/
def envStatus (s : Int) : Env where
  urlParse := fun _ => none
  Do := fun _ => .ok (oracleResponse s)

/-- An environment whose oracle never answers within the client timeout. -/
def envTimeout : Env where
  urlParse := fun _ => none
  Do := fun _ => .error "context deadline exceeded (Client.Timeout exceeded while awaiting headers)"

/-- A websocket upgrade request whose body must not be touched. -/
def websocketRequest : Request :=
  { exampleRequest with
    Header := AList.insert "Upgrade" ["websocket"] exampleRequest.Header
    Body := .err "body must not be read" }

/-- A request whose body stream fails after its first chunk. -/
def brokenBodyRequest : Request :=
  { exampleRequest with Body := .chunk (stringBytes "he") (.err "unexpected EOF") }

/-- A plugin configured with a base URL that lacks its scheme; `New` accepts it
because it is non-empty. -/
def schemelessPlugin : Modsecurity :=
  { examplePlugin with modSecurityUrl := "127.0.0.1:8080" }

/-- An environment in which `url.Parse` rejects `127.0.0.1:8080/a/b?x=1`, as
Go does for a URL without scheme whose first path segment holds a colon. -/
def envSchemeless : Env where
  urlParse := fun u =>
    if u = "127.0.0.1:8080/a/b?x=1" then
      some "first path segment in URL cannot contain colon"
    else none
  Do := fun _ => .ok (oracleResponse 200)

/-! ## Lemmas about the standard-library model -/

theorem utf8ByteSize_eq_zero_iff (s : String) : s.utf8ByteSize = 0 ↔ s = "" := by
  constructor
  · intro h
    rcases s with ⟨l⟩
    cases l with
    | nil => rfl
    | cons c cs =>
      have hc := Char.utf8Size_pos c
      simp [String.utf8ByteSize, String.utf8ByteSize.go] at h
      omega
  · rintro rfl
    rfl

theorem isWebsocketLoop_iff (vals : List String) :
    isWebsocketLoop vals = true ↔ "websocket" ∈ vals := by
  induction vals with
  | nil => simp [isWebsocketLoop]
  | cons v t ih =>
    unfold isWebsocketLoop
    by_cases hv : v = "websocket"
    · simp [hv]
    · have hv1 : ¬ "websocket" = v := fun h => hv h.symm
      simp [hv, hv1, ih]

theorem isWebsocket_iff (req : Request) :
    isWebsocket req = true ↔ "websocket" ∈ req.Header.index "Upgrade" := by
  unfold isWebsocket
  exact isWebsocketLoop_iff _

theorem HeaderSet_status (w : ResponseWriter) (k v : String) :
    (w.HeaderSet k v).status = w.status := rfl

theorem HeaderSet_body (w : ResponseWriter) (k v : String) :
    (w.HeaderSet k v).body = w.body := rfl

theorem WriteHeader_of_unwritten (w : ResponseWriter) (code : Int)
    (h : w.status = none) : w.WriteHeader code = { w with status := some code } := by
  unfold ResponseWriter.WriteHeader
  rw [h]

theorem WriteHeader_of_written (w : ResponseWriter) (code s : Int)
    (h : w.status = some s) : w.WriteHeader code = w := by
  unfold ResponseWriter.WriteHeader
  rw [h]

theorem httpError_status (w : ResponseWriter) (msg : String) (code : Int)
    (h : w.status = none) : (httpError w msg code).status = some code := by
  simp [httpError, ResponseWriter.Write, ResponseWriter.WriteHeader,
    ResponseWriter.HeaderSet, h]

theorem httpError_body (w : ResponseWriter) (msg : String) (code : Int) :
    (httpError w msg code).body = w.body ++ stringBytes (msg ++ "\n") := by
  unfold httpError ResponseWriter.Write
  simp only []
  cases hs : w.status <;>
    simp [ResponseWriter.WriteHeader, ResponseWriter.HeaderSet, hs]

theorem ioCopy_of_written (r : Reader) :
    ∀ (w : ResponseWriter) (s : Int) (B : Bytes), w.status = some s →
      ioutilReadAll r = (B, none) →
      ioCopy w r = { w with body := w.body ++ B } := by
  induction r with
  | eof =>
    intro w s B _ hB
    simp [ioutilReadAll] at hB
    subst hB
    simp [ioCopy]
  | err e =>
    intro w s B _ hB
    simp [ioutilReadAll] at hB
  | chunk data rest ih =>
    intro w s B hs hB
    simp only [ioutilReadAll, Prod.mk.injEq] at hB
    obtain ⟨hB1, hB2⟩ := hB
    have hw : w.Write data = { w with body := w.body ++ data } := by
      unfold ResponseWriter.Write
      rw [WriteHeader_of_written w 200 s hs]
    have hrest : ioutilReadAll rest = ((ioutilReadAll rest).1, none) := by
      rw [← hB2]
    rw [ioCopy, hw]
    have hstep := ih { w with body := w.body ++ data } s _ hs hrest
    rw [hstep]
    simp [← hB1, List.append_assoc]

theorem relayValues_status (k : String) (vv : List String) :
    ∀ w : ResponseWriter, (relayValues w k vv).status = w.status
      ∧ (relayValues w k vv).body = w.body := by
  induction vv with
  | nil => intro w; exact ⟨rfl, rfl⟩
  | cons v t ih =>
    intro w
    have h := ih (w.HeaderSet k v)
    simpa [relayValues, HeaderSet_status, HeaderSet_body] using h

theorem relayHeadersList_status (l : List (Sigma fun _ : String => List String)) :
    ∀ w : ResponseWriter,
      (l.foldl (fun w1 e => relayValues w1 e.1 e.2) w).status = w.status
      ∧ (l.foldl (fun w1 e => relayValues w1 e.1 e.2) w).body = w.body := by
  induction l with
  | nil => intro w; exact ⟨rfl, rfl⟩
  | cons e t ih =>
    intro w
    rw [List.foldl_cons]
    have h1 := ih (relayValues w e.1 e.2)
    have h2 := relayValues_status e.1 e.2 w
    exact ⟨h1.1.trans h2.1, h1.2.trans h2.2⟩

theorem relayHeaders_status (w : ResponseWriter) (h : Header) :
    (relayHeaders w h).status = w.status := (relayHeadersList_status h.entries w).1

theorem relayHeaders_body (w : ResponseWriter) (h : Header) :
    (relayHeaders w h).body = w.body := (relayHeadersList_status h.entries w).2


/-! ## Lemmas about the header relay loop and the ways a call can end -/

theorem relayValues_header_of_ne_nil (k : String) (vv : List String) (hne : vv ≠ []) :
    ∀ w : ResponseWriter,
      (relayValues w k vv).header.lookup (CanonicalMIMEHeaderKey k)
        = some [vv.getLast hne] := by
  induction vv with
  | nil => exact absurd rfl hne
  | cons v t ih =>
    intro w
    cases t with
    | nil =>
      simp [relayValues, ResponseWriter.HeaderSet, Header.Set, AList.lookup_insert]
    | cons v2 t2 =>
      have h := ih (by simp) (w.HeaderSet k v)
      simpa [relayValues, List.getLast_cons] using h

theorem ServeHTTP_block_status_body (env : Env) (a : Modsecurity)
    (rw : ResponseWriter) (req : Request) (b B : Bytes) (p : Request)
    (resp : Response)
    (hrw : rw.status = none)
    (hws : isWebsocket req = false)
    (hbody : ioutilReadAll req.Body = (b, none))
    (hnew : NewRequest env req.Method (a.modSecurityUrl ++ req.RequestURI)
      (bytesNewReader b) = .ok p)
    (hdo : env.Do { p with Header := copyRequestHeader req.Header } = .ok resp)
    (hs : 400 ≤ resp.StatusCode)
    (hB : ioutilReadAll resp.Body = (B, none)) :
    (a.ServeHTTP env rw req).exit = .returned .BLOCKED
      ∧ (a.ServeHTTP env rw req).rw.status = some resp.StatusCode
      ∧ (a.ServeHTTP env rw req).rw.body = rw.body ++ B
      ∧ nextCalls (a.ServeHTTP env rw req).trace = [] := by
  have hst : (relayHeaders rw resp.Header).status = none := by
    rw [relayHeaders_status, hrw]
  have hwh := WriteHeader_of_unwritten (relayHeaders rw resp.Header) resp.StatusCode hst
  have hcopy := ioCopy_of_written resp.Body
    ((relayHeaders rw resp.Header).WriteHeader resp.StatusCode) resp.StatusCode B
    (by rw [hwh]) hB
  unfold Modsecurity.ServeHTTP
  simp only [hws, hbody, hnew, hdo, ioutilNopCloser]
  simp only [ge_iff_le, hs, if_true, Bool.false_eq_true, if_false]
  refine ⟨trivial, ?_, ?_, ?_⟩
  · rw [hcopy, hwh]
  · rw [hcopy, hwh]
    simp [relayHeaders_body]
  · simp [nextCalls]

theorem ServeHTTP_panicked_iff (env : Env) (a : Modsecurity)
    (rw : ResponseWriter) (req : Request) :
    (a.ServeHTTP env rw req).exit = .panicked ↔
      (isWebsocket req = false ∧ (ioutilReadAll req.Body).2 = none
        ∧ ∃ e, NewRequest env req.Method (a.modSecurityUrl ++ req.RequestURI)
            (bytesNewReader (ioutilReadAll req.Body).1) = .error e) := by
  unfold Modsecurity.ServeHTTP
  cases hws : isWebsocket req
  · rcases hb : ioutilReadAll req.Body with ⟨b, _ | e⟩
    · simp only [Bool.false_eq_true, if_false, ioutilNopCloser]
      cases hn : NewRequest env req.Method (a.modSecurityUrl ++ req.RequestURI)
          (bytesNewReader b) with
      | error e => simp
      | ok p =>
        simp only []
        cases hd : env.Do { p with Header := copyRequestHeader req.Header } with
        | error e => simp
        | ok resp =>
          simp only []
          split <;> simp
    · simp
  · simp


/-- The oracle request `http.NewRequest` builds for `exampleRequest` at
`examplePlugin`, before its headers are filled in. -/
theorem exampleRequest_NewRequest (s : Int) :
    NewRequest (envStatus s) exampleRequest.Method
        (examplePlugin.modSecurityUrl ++ exampleRequest.RequestURI)
        (bytesNewReader (stringBytes "hello"))
      = .ok { Method := "GET", URL := "http://oracle:8080/a/b?x=1",
              RequestURI := "", Header := ∅,
              Body := bytesNewReader (stringBytes "hello") } := by
  rfl

/-! ## Properties of `New` and `ServeHTTP` -/

/-- C1, evaluated at an oracle response with status 403 whose `Set-Cookie`
header carries the two values `a=1` and `b=2`: the plugin blocks, relays the
status and the body and does not call `next`, but the outbound `Set-Cookie`
header holds only the last value `b=2`, so the outbound headers are not the
oracle's headers. -/
theorem block_relay_keeps_last_header_value :
    (examplePlugin.ServeHTTP (envStatus 403) .fresh exampleRequest).exit
        = .returned .BLOCKED
      ∧ (examplePlugin.ServeHTTP (envStatus 403) .fresh exampleRequest).rw.status
        = some 403
      ∧ (examplePlugin.ServeHTTP (envStatus 403) .fresh exampleRequest).rw.body
        = stringBytes "denied"
      ∧ nextCalls (examplePlugin.ServeHTTP (envStatus 403) .fresh exampleRequest).trace
        = []
      ∧ (oracleResponse 403).Header.lookup "Set-Cookie" = some ["a=1", "b=2"]
      ∧ (examplePlugin.ServeHTTP (envStatus 403) .fresh
          exampleRequest).rw.header.lookup "Set-Cookie" = some ["b=2"] := by
  decide

/-- C2: when the body is read and the dispatch succeeds with a response of
status below 400 (so for every status from 100 to 399), `next` is invoked
exactly once, with the response writer exactly as the plugin received it (the
plugin wrote no status, header or body) and the final writer state is what
`next` made of it; from status 400 on the plugin blocks and `next` is not
invoked. -/
theorem allow_verdict_delegates_once (env : Env) (a : Modsecurity)
    (rw : ResponseWriter) (req : Request) (b : Bytes) (p : Request)
    (resp : Response)
    (hws : isWebsocket req = false)
    (hbody : ioutilReadAll req.Body = (b, none))
    (hnew : NewRequest env req.Method (a.modSecurityUrl ++ req.RequestURI)
      (bytesNewReader b) = .ok p)
    (hdo : env.Do { p with Header := copyRequestHeader req.Header } = .ok resp) :
    (resp.StatusCode < 400 →
        (a.ServeHTTP env rw req).exit = .returned .ALLOWED
        ∧ nextCalls (a.ServeHTTP env rw req).trace
            = [(rw, { req with Body := bytesNewReader b })]
        ∧ (a.ServeHTTP env rw req).rw
            = a.next rw { req with Body := bytesNewReader b })
      ∧ (400 ≤ resp.StatusCode →
        (a.ServeHTTP env rw req).exit = .returned .BLOCKED
        ∧ nextCalls (a.ServeHTTP env rw req).trace = []) := by
  unfold Modsecurity.ServeHTTP
  simp only [hws, hbody, hnew, hdo, ioutilNopCloser]
  constructor
  · intro hlt
    have hnot : ¬ resp.StatusCode ≥ 400 := by omega
    simp [hnot, nextCalls]
  · intro hge
    have hge1 : resp.StatusCode ≥ 400 := hge
    simp [hge1, nextCalls]

/-- Witness for C2: status 399 delegates once, status 400 blocks. -/
theorem allow_verdict_delegates_once_witness :
    ((examplePlugin.ServeHTTP (envStatus 399) .fresh exampleRequest).exit
        = .returned .ALLOWED
      ∧ nextCalls (examplePlugin.ServeHTTP (envStatus 399) .fresh exampleRequest).trace
        = [(.fresh, { exampleRequest with
              Body := bytesNewReader (stringBytes "hello") })]
      ∧ (examplePlugin.ServeHTTP (envStatus 399) .fresh exampleRequest).rw
        = examplePlugin.next .fresh { exampleRequest with
              Body := bytesNewReader (stringBytes "hello") })
    ∧ ((examplePlugin.ServeHTTP (envStatus 400) .fresh exampleRequest).exit
        = .returned .BLOCKED
      ∧ nextCalls (examplePlugin.ServeHTTP (envStatus 400) .fresh exampleRequest).trace
        = []) :=
  ⟨(allow_verdict_delegates_once (envStatus 399) examplePlugin .fresh exampleRequest
      (stringBytes "hello") _ (oracleResponse 399) (by decide) (by decide)
      (exampleRequest_NewRequest 399) rfl).1 (by decide),
   (allow_verdict_delegates_once (envStatus 400) examplePlugin .fresh exampleRequest
      (stringBytes "hello") _ (oracleResponse 400) (by decide) (by decide)
      (exampleRequest_NewRequest 400) rfl).2 (by decide)⟩


/-- C4: when some value of the `Upgrade` header is `websocket` (the test
`isWebsocket` makes), the only external call of `ServeHTTP` is one call of
`next` with the writer and the request exactly as received: the body is not
read, no oracle request is built or dispatched, and the final writer state
is what `next` made of it. -/
theorem websocket_bypass (env : Env) (a : Modsecurity) (rw : ResponseWriter)
    (req : Request) (hup : "websocket" ∈ req.Header.index "Upgrade") :
    isWebsocket req = true
      ∧ (a.ServeHTTP env rw req).exit = .returned .BYPASSED
      ∧ (a.ServeHTTP env rw req).trace = [Event.next rw req]
      ∧ nextCalls (a.ServeHTTP env rw req).trace = [(rw, req)]
      ∧ bodyReads (a.ServeHTTP env rw req).trace = 0
      ∧ builtURLs (a.ServeHTTP env rw req).trace = []
      ∧ dispatched (a.ServeHTTP env rw req).trace = []
      ∧ (a.ServeHTTP env rw req).rw = a.next rw req := by
  have hws : isWebsocket req = true := (isWebsocket_iff req).2 hup
  unfold Modsecurity.ServeHTTP
  simp [hws, nextCalls, bodyReads, builtURLs, dispatched]

/-- Witness for C4: a websocket upgrade request with an unreadable body. -/
theorem websocket_bypass_witness :
    "websocket" ∈ websocketRequest.Header.index "Upgrade"
    ∧ (isWebsocket websocketRequest = true
      ∧ (examplePlugin.ServeHTTP envTimeout .fresh websocketRequest).exit
          = .returned .BYPASSED
      ∧ (examplePlugin.ServeHTTP envTimeout .fresh websocketRequest).trace
          = [Event.next .fresh websocketRequest]
      ∧ nextCalls (examplePlugin.ServeHTTP envTimeout .fresh websocketRequest).trace
          = [(.fresh, websocketRequest)]
      ∧ bodyReads (examplePlugin.ServeHTTP envTimeout .fresh websocketRequest).trace = 0
      ∧ builtURLs (examplePlugin.ServeHTTP envTimeout .fresh websocketRequest).trace = []
      ∧ dispatched (examplePlugin.ServeHTTP envTimeout .fresh websocketRequest).trace = []
      ∧ (examplePlugin.ServeHTTP envTimeout .fresh websocketRequest).rw
          = examplePlugin.next .fresh websocketRequest) :=
  ⟨by decide, websocket_bypass envTimeout examplePlugin .fresh websocketRequest (by decide)⟩

/-- C6: when the body is read and the dispatch returns a transport error `e`
(the shared client reports an exceeded 2-second timeout as such an error),
the plugin answers with status 502 Bad Gateway and the body `e` followed by a
newline, and `next` is not invoked. -/
theorem dispatch_failure_bad_gateway (env : Env) (a : Modsecurity)
    (rw : ResponseWriter) (req : Request) (b : Bytes) (p : Request) (e : String)
    (hrw : rw.status = none)
    (hws : isWebsocket req = false)
    (hbody : ioutilReadAll req.Body = (b, none))
    (hnew : NewRequest env req.Method (a.modSecurityUrl ++ req.RequestURI)
      (bytesNewReader b) = .ok p)
    (hdo : env.Do { p with Header := copyRequestHeader req.Header } = .error e) :
    (a.ServeHTTP env rw req).exit = .returned .DISPATCH_FAILED
      ∧ (a.ServeHTTP env rw req).rw.status = some 502
      ∧ (a.ServeHTTP env rw req).rw.body = rw.body ++ stringBytes (e ++ "\n")
      ∧ nextCalls (a.ServeHTTP env rw req).trace = []
      ∧ httpClientTimeout = 2 * 1000000000 := by
  unfold Modsecurity.ServeHTTP
  simp only [hws, hbody, hnew, hdo, ioutilNopCloser]
  refine ⟨by simp, ?_, ?_, by simp [nextCalls], rfl⟩
  · simpa [StatusBadGateway] using httpError_status rw e StatusBadGateway hrw
  · simpa using httpError_body rw e StatusBadGateway

/-- Witness for C6: the oracle does not answer within the timeout. -/
theorem dispatch_failure_bad_gateway_witness :
    (examplePlugin.ServeHTTP envTimeout .fresh exampleRequest).exit
        = .returned .DISPATCH_FAILED
      ∧ (examplePlugin.ServeHTTP envTimeout .fresh exampleRequest).rw.status = some 502
      ∧ (examplePlugin.ServeHTTP envTimeout .fresh exampleRequest).rw.body
        = ResponseWriter.fresh.body ++ stringBytes
            ("context deadline exceeded (Client.Timeout exceeded while awaiting headers)"
              ++ "\n")
      ∧ nextCalls (examplePlugin.ServeHTTP envTimeout .fresh exampleRequest).trace = []
      ∧ httpClientTimeout = 2 * 1000000000 :=
  dispatch_failure_bad_gateway envTimeout examplePlugin .fresh exampleRequest
    (stringBytes "hello")
    { Method := "GET", URL := "http://oracle:8080/a/b?x=1", RequestURI := "",
      Header := ∅, Body := bytesNewReader (stringBytes "hello") }
    "context deadline exceeded (Client.Timeout exceeded while awaiting headers)"
    rfl (by decide) (by decide) rfl rfl

/-- C7: `New` returns a non-nil error together with a nil handler exactly
when the configured URL is the empty string; for every non-empty URL it
returns a nil error and a plugin holding exactly the given URL, `next` and
name. -/
theorem New_fails_iff_url_empty (ctx : Context) (next : Handler)
    (config : Config) (name : String) :
    (((New ctx next config name).2 ≠ none ∧ (New ctx next config name).1 = none)
        ↔ config.ModSecurityUrl = "")
      ∧ (config.ModSecurityUrl ≠ "" →
          (New ctx next config name).2 = none
          ∧ ∃ m : Modsecurity, (New ctx next config name).1 = some m
              ∧ m.modSecurityUrl = config.ModSecurityUrl
              ∧ m.next = next ∧ m.name = name) := by
  by_cases h : config.ModSecurityUrl = ""
  · have h0 : config.ModSecurityUrl.utf8ByteSize = 0 :=
      (utf8ByteSize_eq_zero_iff _).2 h
    have hN : New ctx next config name
        = (none, some "modSecurityUrl cannot be empty") := by
      unfold New
      simp only [h0, beq_self_eq_true, if_true]
    rw [hN]
    exact ⟨⟨fun _ => h, fun _ => ⟨by simp, rfl⟩⟩, fun hne => absurd h hne⟩
  · have h0 : ¬ config.ModSecurityUrl.utf8ByteSize = 0 :=
      fun hz => h ((utf8ByteSize_eq_zero_iff _).1 hz)
    have hN : New ctx next config name
        = (some { modSecurityUrl := config.ModSecurityUrl, next := next,
                  name := name }, none) := by
      unfold New
      simp only [beq_iff_eq, h0, if_false]
    rw [hN]
    exact ⟨⟨fun hh => absurd rfl hh.1, fun hh => absurd hh h⟩,
      fun _ => ⟨rfl, _, rfl, rfl, rfl, rfl⟩⟩

/-- Witness for C7: the default configuration is refused, a configuration
with a URL is accepted. -/
theorem New_fails_iff_url_empty_witness :
    New () exampleNext CreateConfig "waf"
        = (none, some "modSecurityUrl cannot be empty")
    ∧ ((New () exampleNext { ModSecurityUrl := "http://oracle:8080" } "waf").2 = none
      ∧ ∃ m : Modsecurity,
          (New () exampleNext { ModSecurityUrl := "http://oracle:8080" } "waf").1
            = some m
          ∧ m.modSecurityUrl = "http://oracle:8080"
          ∧ m.next = exampleNext ∧ m.name = "waf") :=
  ⟨rfl,
   (New_fails_iff_url_empty () exampleNext { ModSecurityUrl := "http://oracle:8080" }
      "waf").2 (by decide)⟩

/-- C8: when the read of the inbound body fails with error `e`, the plugin
answers with status 500 Internal Server Error and the body `e` followed by
a newline; the read is its only external call, so no oracle request is
built or dispatched and `next` is not invoked. -/
theorem body_read_failure_internal_error (env : Env) (a : Modsecurity)
    (rw : ResponseWriter) (req : Request) (part : Bytes) (e : String)
    (hrw : rw.status = none)
    (hws : isWebsocket req = false)
    (hbody : ioutilReadAll req.Body = (part, some e)) :
    (a.ServeHTTP env rw req).exit = .returned .CAPTURE_FAILED
      ∧ (a.ServeHTTP env rw req).rw.status = some 500
      ∧ (a.ServeHTTP env rw req).rw.body = rw.body ++ stringBytes (e ++ "\n")
      ∧ (a.ServeHTTP env rw req).trace = [Event.readAll req.Body]
      ∧ builtURLs (a.ServeHTTP env rw req).trace = []
      ∧ dispatched (a.ServeHTTP env rw req).trace = []
      ∧ nextCalls (a.ServeHTTP env rw req).trace = [] := by
  unfold Modsecurity.ServeHTTP
  simp only [hws, hbody]
  refine ⟨by simp, ?_, ?_, by simp, by simp [builtURLs], by simp [dispatched],
    by simp [nextCalls]⟩
  · simpa [StatusInternalServerError] using
      httpError_status rw e StatusInternalServerError hrw
  · simpa using httpError_body rw e StatusInternalServerError

/-- Witness for C8: a body stream that fails after its first chunk. -/
theorem body_read_failure_internal_error_witness :
    ioutilReadAll brokenBodyRequest.Body = (stringBytes "he", some "unexpected EOF")
    ∧ ((examplePlugin.ServeHTTP (envStatus 200) .fresh brokenBodyRequest).exit
        = .returned .CAPTURE_FAILED
      ∧ (examplePlugin.ServeHTTP (envStatus 200) .fresh brokenBodyRequest).rw.status
        = some 500
      ∧ (examplePlugin.ServeHTTP (envStatus 200) .fresh brokenBodyRequest).rw.body
        = ResponseWriter.fresh.body ++ stringBytes ("unexpected EOF" ++ "\n")
      ∧ (examplePlugin.ServeHTTP (envStatus 200) .fresh brokenBodyRequest).trace
        = [Event.readAll brokenBodyRequest.Body]
      ∧ builtURLs (examplePlugin.ServeHTTP (envStatus 200) .fresh brokenBodyRequest).trace
        = []
      ∧ dispatched (examplePlugin.ServeHTTP (envStatus 200) .fresh brokenBodyRequest).trace
        = []
      ∧ nextCalls (examplePlugin.ServeHTTP (envStatus 200) .fresh brokenBodyRequest).trace
        = []) :=
  ⟨by decide,
   body_read_failure_internal_error (envStatus 200) examplePlugin .fresh
     brokenBodyRequest (stringBytes "he") "unexpected EOF" rfl (by decide) (by decide)⟩

/-- C10, evaluated at a plugin whose base URL `127.0.0.1:8080` lacks its scheme
and the request `GET /a/b?x=1`: `http.NewRequest` is called with a URL that
`url.Parse` rejects, returns a nil request, and `ServeHTTP` ends in a panic:
it reaches none of its return points, writes nothing to the response,
dispatches nothing and does not call `next`. -/
theorem unparsable_target_panics :
    (New () exampleNext { ModSecurityUrl := "127.0.0.1:8080" } "waf").2 = none
    ∧ builtURLs (schemelessPlugin.ServeHTTP envSchemeless .fresh exampleRequest).trace
        = ["127.0.0.1:8080/a/b?x=1"]
    ∧ (schemelessPlugin.ServeHTTP envSchemeless .fresh exampleRequest).exit = .panicked
    ∧ (schemelessPlugin.ServeHTTP envSchemeless .fresh exampleRequest).rw = .fresh
    ∧ dispatched (schemelessPlugin.ServeHTTP envSchemeless .fresh exampleRequest).trace
        = []
    ∧ nextCalls (schemelessPlugin.ServeHTTP envSchemeless .fresh exampleRequest).trace
        = [] :=
  ⟨by decide, by decide, by decide, rfl, by decide, by decide⟩

end ModSecurity
